import Mathlib

/-!
# Verification of `character_manager.py` (Quest Chronicles, Project 3)

A shallow embedding of the character-management core: the character record,
the character factory, the stat/progression engine (experience, gold, healing,
death and revival), the text persistence layer (save/load with the
`KEY: VALUE` line format) and the structural validator.

Python strings are modelled as `List Char`, Python integers as `Int`
(arbitrary precision, as in CPython), Python dictionaries as association
lists with insert-overwrite semantics.  Functions that mutate the character
dictionary in place are modelled as functions returning the post-state
together with the returned value; functions that can raise return the
post-state paired with an `Except` result (the state component is the
dictionary as the caller sees it after the call, whether or not an
exception was raised).
-/

deriving instance DecidableEq for Except

namespace CharacterManager

/-- Python strings, modelled as lists of characters. -/
abbrev Str := List Char

/-- Coerce a Lean string literal into the `Str` model. -/
def str (s : String) : Str := s.toList

/-- Modelled from the spec: `custom_exceptions.py` is imported by
`character_manager.py` but is not part of the sources; §7 of the spec lists
the error kinds as distinguishable values.  One constructor per exception
class raised by the module; `valueError` is the `ValueError` raised by
`add_gold`, which realises the spec's `InsufficientGold` kind. -/
inductive CharError where
  | invalidCharacterClass
  | characterNotFound
  | saveFileCorrupted
  | invalidSaveData
  | characterDead
  | valueError
deriving DecidableEq, Repr

/-- The character dictionary built by `create_character`: twelve fields,
in the order of the literal at `character_manager.py:63-76`. -/
structure Character where
  name : Str
  className : Str
  level : Int
  health : Int
  max_health : Int
  strength : Int
  magic : Int
  experience : Int
  gold : Int
  inventory : List Str
  active_quests : List Str
  completed_quests : List Str
deriving DecidableEq, Repr

/-- The `valid_classes` base-stat table of `create_character`
(health, strength, magic per class). -/
def classBase (character_class : Str) : Option (Int × Int × Int) :=
  if character_class = str "Warrior" then some (120, 15, 5)
  else if character_class = str "Mage" then some (80, 8, 20)
  else if character_class = str "Rogue" then some (90, 12, 10)
  else if character_class = str "Cleric" then some (100, 10, 15)
  else none

/-- `create_character(name, character_class)`: base stats from the class
table, level 1, zero experience, 100 gold, empty lists; raises
`InvalidCharacterClassError` on an unknown class. -/
def create_character (name character_class : Str) : Except CharError Character :=
  match classBase character_class with
  | none => .error .invalidCharacterClass
  | some (h, s, m) =>
      .ok { name := name
            className := character_class
            level := 1
            health := h
            max_health := h
            strength := s
            magic := m
            experience := 0
            gold := 100
            inventory := []
            active_quests := []
            completed_quests := [] }

/-- `is_character_dead(character)`: health is 0 or less. -/
def is_character_dead (c : Character) : Bool := c.health ≤ 0

/-- One iteration of the level-up `while` loop of `gain_experience`:
subtract the threshold `level * 100`, increment the level, add the
per-level bonuses, and restore health to the new `max_health`. -/
def levelStep (c : Character) : Character :=
  { c with experience := c.experience - c.level * 100
           level := c.level + 1
           max_health := c.max_health + 10
           strength := c.strength + 2
           magic := c.magic + 2
           health := c.max_health + 10 }

/-- The `while character["experience"] >= character["level"] * 100` loop of
`gain_experience`, run to completion. -/
def levelUpLoop (c : Character) : Character :=
  if c.level * 100 ≤ c.experience then levelUpLoop (levelStep c) else c
termination_by ((1 - c.level).toNat, c.experience.toNat)
decreasing_by
  simp only [levelStep]
  by_cases hl : 1 ≤ c.level
  · exact Prod.Lex.right' _ (by omega) (by omega)
  · exact Prod.Lex.left _ _ (by omega)

/-- `gain_experience(character, xp_amount)`: raises `CharacterDeadError` if
the character is dead (leaving the dictionary untouched); otherwise adds the
amount to `experience`, runs the cascading level-up loop, and returns the
resulting level. -/
def gain_experience (c : Character) (xp_amount : Int) :
    Character × Except CharError Int :=
  if is_character_dead c then (c, .error .characterDead)
  else
    let c2 := levelUpLoop { c with experience := c.experience + xp_amount }
    (c2, .ok c2.level)

/-- `add_gold(character, amount)`: raises `ValueError` when the new total
would be negative (dictionary untouched), otherwise stores and returns the
new total. -/
def add_gold (c : Character) (amount : Int) : Character × Except CharError Int :=
  let new_total := c.gold + amount
  if new_total < 0 then (c, .error .valueError)
  else ({ c with gold := new_total }, .ok new_total)

/-- `heal_character(character, amount)`: clamps health at `max_health` and
returns the delta actually applied. -/
def heal_character (c : Character) (amount : Int) : Character × Int :=
  let before := c.health
  let newHealth := min (c.health + amount) c.max_health
  ({ c with health := newHealth }, newHealth - before)

/-- `revive_character(character)`: `False` on a living character (no-op);
on a dead one sets health to `max_health // 2` (Python floor division,
hence `Int.fdiv`) and returns `True`. -/
def revive_character (c : Character) : Character × Bool :=
  if ¬ is_character_dead c then (c, false)
  else ({ c with health := Int.fdiv c.max_health 2 }, true)

/-- Fuel-indexed version of the level-up loop: `none` means the `while`
loop did not exit within the given number of iterations. -/
def levelUpLoopFuel : Nat → Character → Option Character
  | 0, c => if c.level * 100 ≤ c.experience then none else some c
  | n + 1, c =>
      if c.level * 100 ≤ c.experience then levelUpLoopFuel n (levelStep c)
      else some c

/-! ## String primitives used by the persistence layer -/

/-- The characters removed by Python's `str.strip()`: everything for which
CPython's `str.isspace()` holds — the ASCII whitespace and file/group/
record/unit separator controls (U+0009-U+000D, U+001C-U+001F, U+0020),
next line U+0085, no-break space U+00A0, Ogham space U+1680, the Unicode
spaces U+2000-U+200A, the line and paragraph separators U+2028 and U+2029,
narrow no-break space U+202F, medium mathematical space U+205F, and
ideographic space U+3000. -/
def pyIsSpace (c : Char) : Bool :=
  c = ' ' ∨ c = '\t' ∨ c = '\n' ∨ c = '\x0b' ∨ c = '\x0c' ∨ c = '\r' ∨
  c = '\x1c' ∨ c = '\x1d' ∨ c = '\x1e' ∨ c = '\x1f' ∨ c = '\x85' ∨
  c = '\xa0' ∨ c = '\u1680' ∨ ('\u2000' ≤ c ∧ c ≤ '\u200a') ∨
  c = '\u2028' ∨ c = '\u2029' ∨ c = '\u202f' ∨ c = '\u205f' ∨ c = '\u3000'

/-- Python `str.strip()`: remove leading and trailing whitespace. -/
def pyStrip (s : Str) : Str :=
  List.rdropWhile pyIsSpace (List.dropWhile pyIsSpace s)

/-- Python `s.split(":", 1)`: split at the first colon; `none` when no colon
occurs (in which case the two-variable unpacking in the source raises). -/
def splitFirstColon : Str → Option (Str × Str)
  | [] => none
  | c :: rest =>
      if c = ':' then some ([], rest)
      else (splitFirstColon rest).map (fun p => (c :: p.1, p.2))

/-- Text-mode universal-newline translation applied by Python when reading:
`"\r\n"` and a lone `'\r'` both become `'\n'`.  (Writing is modelled as the
identity, as on POSIX, where `os.linesep` is `"\n"`.) -/
def nlTransAux : Bool → Str → Str
  | _, [] => []
  | prevCR, c :: rest =>
      if c = '\r' then '\n' :: nlTransAux true rest
      else if c = '\n' then
        (if prevCR then nlTransAux false rest else '\n' :: nlTransAux false rest)
      else c :: nlTransAux false rest

/-- Translation entry point: no pending carriage return. -/
def newlineTranslate (s : Str) : Str := nlTransAux false s

/-- Splitting already-translated text after every `'\n'`: each line keeps
its trailing `'\n'`; a final fragment without a newline is its own line;
no empty trailing line. -/
def splitLinesLF : Str → List Str
  | [] => []
  | c :: rest =>
      if c = '\n' then ['\n'] :: splitLinesLF rest
      else
        match splitLinesLF rest with
        | [] => [[c]]
        | l :: ls => (c :: l) :: ls

/-- Python `file.readlines()` on a text-mode file: universal-newline
translation followed by splitting after every newline. -/
def pyReadlines (s : Str) : List Str := splitLinesLF (newlineTranslate s)

/-- The decimal digit character for `d < 10`. -/
def digitChar (d : Nat) : Char := Char.ofNat (48 + d)

/-- Decimal digits with explicit fuel (structural recursion, so that the
kernel can evaluate serialization on concrete inputs); `fuel = n + 1` always
suffices because a number has at most `n + 1` digits. -/
def natToDigitsAux : Nat → Nat → Str
  | 0, _ => []
  | fuel + 1, n =>
      if n < 10 then [digitChar n]
      else natToDigitsAux fuel (n / 10) ++ [digitChar (n % 10)]

/-- Decimal digits of a natural number, most significant first. -/
def natToDigits (n : Nat) : Str := natToDigitsAux (n + 1) n

/-- Python `str()` of an integer: optional minus sign, then decimal digits. -/
def intToStr (i : Int) : Str :=
  if i < 0 then '-' :: natToDigits (-i).toNat else natToDigits i.toNat

/-- The value of a decimal digit character, `none` on a non-digit. -/
def digitVal? (c : Char) : Option Nat :=
  if '0' ≤ c ∧ c ≤ '9' then some (c.toNat - 48) else none

/-- Accumulating decimal parser: `none` as soon as a non-digit appears. -/
def parseNatAux : Str → Nat → Option Nat
  | [], acc => some acc
  | c :: rest, acc =>
      match digitVal? c with
      | some d => parseNatAux rest (acc * 10 + d)
      | none => none

/-- Python `int(s)` on an already-stripped string: an optional sign followed
by a nonempty run of decimal digits (the grammar `str()` emits; CPython
extras such as underscore separators are not modelled). `none` models the
`ValueError`. -/
def pyInt (s : Str) : Option Int :=
  match s with
  | [] => none
  | c :: rest =>
      if c = '-' then
        if rest = [] then none else (parseNatAux rest 0).map (fun n => -(n : Int))
      else if c = '+' then
        if rest = [] then none else (parseNatAux rest 0).map (fun n => (n : Int))
      else (parseNatAux (c :: rest) 0).map (fun n => (n : Int))

/-- Python `",".join(items)`. -/
def joinComma (items : List Str) : Str := List.intercalate [','] items

/-- `data[K].split(",") if data[K] else []`: the empty string loads as the
empty list, anything else splits on every comma. -/
def parseListField (s : Str) : List Str :=
  if s = [] then [] else s.splitOn ','

/-! ## Python dictionaries -/

/-- An association list with Python-dict semantics: `dictInsert` overwrites
an existing binding in place, otherwise appends. -/
abbrev PyDict (α : Type) := List (Str × α)

/-- Python `d[k] = v`: overwrite the binding in place when the key exists,
otherwise append it. -/
def dictInsert {α : Type} : PyDict α → Str → α → PyDict α
  | [], k, v => [(k, v)]
  | (k', v') :: d, k, v =>
      if k' = k then (k, v) :: d else (k', v') :: dictInsert d k v

/-- Python `d[k]` as an option (`none` models the `KeyError`). -/
def dictGet? {α : Type} : PyDict α → Str → Option α
  | [], _ => none
  | (k', v) :: d, k => if k' = k then some v else dictGet? d k

/-! ## Validator -/

/-- A Python value as far as `validate_character_data` inspects it:
an `int`, a `str`, or a `list` (of the item strings this module stores). -/
inductive PyVal where
  | vint (i : Int)
  | vstr (s : Str)
  | vlist (l : List Str)
deriving DecidableEq, Repr

/-- The `required` field list of `validate_character_data`. -/
def requiredFields : List Str :=
  [str "name", str "class", str "level", str "health", str "max_health",
   str "strength", str "magic", str "experience", str "gold",
   str "inventory", str "active_quests", str "completed_quests"]

/-- The `numeric` field list of `validate_character_data`. -/
def numericFields : List Str :=
  [str "level", str "health", str "max_health", str "strength", str "magic",
   str "experience", str "gold"]

/-- The `list_fields` list of `validate_character_data`. -/
def listFields : List Str :=
  [str "inventory", str "active_quests", str "completed_quests"]

/-- `validate_character_data(character)`: every required key present, every
numeric field an `int`, every list field a `list`; raises
`InvalidSaveDataError` otherwise, returns `True` on success.  No range or
value constraint is checked. -/
def validate_character_data (d : PyDict PyVal) : Except CharError Bool :=
  if requiredFields.all (fun k => (dictGet? d k).isSome) then
    if numericFields.all (fun k =>
        match dictGet? d k with | some (.vint _) => true | _ => false) then
      if listFields.all (fun k =>
          match dictGet? d k with | some (.vlist _) => true | _ => false) then
        .ok true
      else .error .invalidSaveData
    else .error .invalidSaveData
  else .error .invalidSaveData

/-- The character dictionary as the Python value dictionary that
`validate_character_data` receives. -/
def Character.toDict (c : Character) : PyDict PyVal :=
  [(str "name", .vstr c.name), (str "class", .vstr c.className),
   (str "level", .vint c.level), (str "health", .vint c.health),
   (str "max_health", .vint c.max_health), (str "strength", .vint c.strength),
   (str "magic", .vint c.magic), (str "experience", .vint c.experience),
   (str "gold", .vint c.gold), (str "inventory", .vlist c.inventory),
   (str "active_quests", .vlist c.active_quests),
   (str "completed_quests", .vlist c.completed_quests)]

/-! ## Persistence layer -/

/-- One `file.write(f"KEY: VALUE\n")` call of `save_character`. -/
def saveLine (key value : Str) : Str := key ++ ':' :: ' ' :: value ++ ['\n']

/-- The full file content written by `save_character`, twelve lines in the
fixed order of the source. -/
def save_content (c : Character) : Str :=
  saveLine (str "NAME") c.name ++
  saveLine (str "CLASS") c.className ++
  saveLine (str "LEVEL") (intToStr c.level) ++
  saveLine (str "HEALTH") (intToStr c.health) ++
  saveLine (str "MAX_HEALTH") (intToStr c.max_health) ++
  saveLine (str "STRENGTH") (intToStr c.strength) ++
  saveLine (str "MAGIC") (intToStr c.magic) ++
  saveLine (str "EXPERIENCE") (intToStr c.experience) ++
  saveLine (str "GOLD") (intToStr c.gold) ++
  saveLine (str "INVENTORY") (joinComma c.inventory) ++
  saveLine (str "ACTIVE_QUESTS") (joinComma c.active_quests) ++
  saveLine (str "COMPLETED_QUESTS") (joinComma c.completed_quests)

/-- The save filename for a character name: `f"{name}_save.txt"` (the
directory prefix is common to save and load and is not modelled).  The
`FileStore` model treats the filename as an opaque key, which matches the
program only for names forming a single POSIX path component — no `'/'`
and no NUL byte; round-trip statements carry those restrictions as
hypotheses. -/
def save_filename (name : Str) : Str := name ++ str "_save.txt"

/-- The save directory, as a mapping from filenames to file contents. -/
abbrev FileStore := PyDict Str

/-- `save_character(character)`: writes the serialized record to the file
named after the character, overwriting any existing file. -/
def save_character (c : Character) (fs : FileStore) : FileStore :=
  dictInsert fs (save_filename c.name) (save_content c)

/-- Steps 3-4 of `load_character`: parse the `KEY: VALUE` lines into the
`data` dictionary.  A line without a colon raises `InvalidSaveDataError`;
otherwise the line is stripped, split at its first colon, and the stripped
key/value pair is stored. -/
def parseLines : List Str → PyDict Str → Except CharError (PyDict Str)
  | [], data => .ok data
  | line :: rest, data =>
      if ':' ∈ line then
        match splitFirstColon (pyStrip line) with
        | some (k, v) => parseLines rest (dictInsert data (pyStrip k) (pyStrip v))
        | none => .error .invalidSaveData
      else .error .invalidSaveData

/-- A `KeyError`/`ValueError` from dictionary lookup or `int()` conversion,
caught at the bottom of `load_character` and re-raised as
`InvalidSaveDataError`. -/
def req {α : Type} (o : Option α) : Except CharError α :=
  match o with
  | some a => .ok a
  | none => .error .invalidSaveData

/-- Steps 3-5 of `load_character` on the raw file content: parse the lines,
rebuild the character dictionary (with `int()` conversions and
comma-splitting of the list fields), validate it, and return it. -/
def load_character_content (content : Str) : Except CharError Character := do
  let data ← parseLines (pyReadlines content) []
  let name ← req (dictGet? data (str "NAME"))
  let cls ← req (dictGet? data (str "CLASS"))
  let level ← req ((dictGet? data (str "LEVEL")).bind pyInt)
  let health ← req ((dictGet? data (str "HEALTH")).bind pyInt)
  let max_health ← req ((dictGet? data (str "MAX_HEALTH")).bind pyInt)
  let strength ← req ((dictGet? data (str "STRENGTH")).bind pyInt)
  let magic ← req ((dictGet? data (str "MAGIC")).bind pyInt)
  let experience ← req ((dictGet? data (str "EXPERIENCE")).bind pyInt)
  let gold ← req ((dictGet? data (str "GOLD")).bind pyInt)
  let inventory ← req ((dictGet? data (str "INVENTORY")).map parseListField)
  let active_quests ← req ((dictGet? data (str "ACTIVE_QUESTS")).map parseListField)
  let completed_quests ← req ((dictGet? data (str "COMPLETED_QUESTS")).map parseListField)
  let character : Character :=
    { name := name, className := cls, level := level, health := health,
      max_health := max_health, strength := strength, magic := magic,
      experience := experience, gold := gold, inventory := inventory,
      active_quests := active_quests, completed_quests := completed_quests }
  let _ ← validate_character_data character.toDict
  pure character

/-- `load_character(character_name)`: `CharacterNotFoundError` when no save
file exists for the name, otherwise parse the file content. -/
def load_character (character_name : Str) (fs : FileStore) :
    Except CharError Character :=
  match dictGet? fs (save_filename character_name) with
  | none => .error .characterNotFound
  | some content => load_character_content content

/-! ## Concrete sample characters used in witnesses and counterexamples -/

def deadSampleC5 : Character :=
  ⟨str "Luna", str "Mage", 1, 0, 80, 8, 20, 0, 100, [], [], []⟩

def goldSampleC6 : Character :=
  ⟨str "Shadow", str "Rogue", 1, 90, 90, 12, 10, 0, 100, [], [], []⟩

def deadSampleC7 : Character :=
  ⟨str "Luna", str "Mage", 1, 0, 80, 8, 20, 0, 100, [], [], []⟩

def invSampleC4 : Character :=
  ⟨str "Shadow", str "Rogue", 1, 50, 100, 12, 10, 0, 100, [], [], []⟩

def negHealSampleC4 : Character :=
  ⟨str "Shadow", str "Rogue", 1, 50, 100, 12, 10, 0, 100, [], [], []⟩

def aliveSampleC2 : Character :=
  ⟨str "Aragon", str "Warrior", 1, 120, 120, 15, 5, 0, 100, [], [], []⟩

def aliveSampleC8 : Character :=
  ⟨str "Aragon", str "Warrior", 1, 120, 120, 15, 5, 0, 100, [], [], []⟩

/-! ## Lemmas about the string primitives -/

theorem dropWhile_eq_self_of_forall {p : Char → Bool} {s : Str}
    (h : ∀ c ∈ s, ¬ p c) : List.dropWhile p s = s := by
  cases s with
  | nil => rfl
  | cons c t => simp [List.dropWhile_cons, h c (List.mem_cons_self c t)]

theorem rdropWhile_eq_self_of_forall {p : Char → Bool} {s : Str}
    (h : ∀ c ∈ s, ¬ p c) : List.rdropWhile p s = s := by
  rw [List.rdropWhile, dropWhile_eq_self_of_forall, List.reverse_reverse]
  intro c hc
  exact h c (List.mem_reverse.mp hc)

theorem pyStrip_eq_self_of_forall {s : Str} (h : ∀ c ∈ s, ¬ pyIsSpace c) :
    pyStrip s = s := by
  rw [pyStrip, dropWhile_eq_self_of_forall h, rdropWhile_eq_self_of_forall h]

theorem pyStrip_parts {s : Str} (h : pyStrip s = s) :
    List.dropWhile pyIsSpace s = s ∧ List.rdropWhile pyIsSpace s = s := by
  have hsuf : List.dropWhile pyIsSpace s <:+ s := List.dropWhile_suffix _
  have hpre : List.rdropWhile pyIsSpace (List.dropWhile pyIsSpace s) <+:
      List.dropWhile pyIsSpace s := List.rdropWhile_prefix _ _
  have hlen : s.length ≤ (List.dropWhile pyIsSpace s).length := by
    have := hpre.length_le
    rw [pyStrip] at h
    rw [h] at this
    exact this
  have hdrop : List.dropWhile pyIsSpace s = s :=
    List.IsSuffix.eq_of_length hsuf (le_antisymm hsuf.length_le hlen)
  refine ⟨hdrop, ?_⟩
  rw [pyStrip, hdrop] at h
  exact h

theorem dropWhile_append_keep {p : Char → Bool} {a : Str} (x : Str)
    (ha : List.dropWhile p a = a) (hne : a ≠ []) :
    List.dropWhile p (a ++ x) = a ++ x := by
  cases a with
  | nil => exact absurd rfl hne
  | cons c t =>
      have hc : ¬ p c := by
        intro hp
        have : List.dropWhile p (c :: t) = List.dropWhile p t := by
          simp [List.dropWhile_cons, hp]
        rw [this] at ha
        have := congrArg List.length ha
        have hle := (List.dropWhile_suffix (l := t) p).length_le
        simp at this
        omega
      simp [List.dropWhile_cons, hc]

theorem rdropWhile_append_keep {p : Char → Bool} {b : Str} (a : Str)
    (hb : List.rdropWhile p b = b) (hne : b ≠ []) :
    List.rdropWhile p (a ++ b) = a ++ b := by
  have hbrev : List.dropWhile p b.reverse = b.reverse := by
    rw [List.rdropWhile] at hb
    have := congrArg List.reverse hb
    rwa [List.reverse_reverse] at this
  have hbne : b.reverse ≠ [] := by simpa using hne
  rw [List.rdropWhile, List.reverse_append,
    dropWhile_append_keep a.reverse hbrev hbne,
    List.reverse_append, List.reverse_reverse, List.reverse_reverse]

theorem splitFirstColon_append (k rest : Str) (hk : ':' ∉ k) :
    splitFirstColon (k ++ ':' :: rest) = some (k, rest) := by
  induction k with
  | nil => simp [splitFirstColon]
  | cons c t ih =>
      have hc : c ≠ ':' := fun h => hk (h ▸ List.mem_cons_self c t)
      have ht : ':' ∉ t := fun h => hk (List.mem_cons_of_mem c h)
      simp [splitFirstColon, hc, ih ht]

theorem nlTransAux_eq_self : ∀ s : Str, '\r' ∉ s → nlTransAux false s = s := by
  intro s
  induction s with
  | nil => intro _; rfl
  | cons c rest ih =>
      intro h
      have hc : c ≠ '\r' := fun he => h (he ▸ List.mem_cons_self c rest)
      have hr : '\r' ∉ rest := fun hm => h (List.mem_cons_of_mem c hm)
      by_cases hn : c = '\n'
      · subst hn
        simp only [nlTransAux, if_neg hc, if_pos rfl, ih hr]
        split <;> rfl
      · simp only [nlTransAux, if_neg hc, if_neg hn, ih hr]

theorem newlineTranslate_eq_self (s : Str) (h : '\r' ∉ s) :
    newlineTranslate s = s := nlTransAux_eq_self s h

theorem splitLinesLF_line (w rest : Str) (hw : '\n' ∉ w) :
    splitLinesLF (w ++ '\n' :: rest) = (w ++ ['\n']) :: splitLinesLF rest := by
  induction w with
  | nil => simp [splitLinesLF]
  | cons c t ih =>
      have hc : c ≠ '\n' := fun h => hw (h ▸ List.mem_cons_self c t)
      have ht : '\n' ∉ t := fun h => hw (List.mem_cons_of_mem c h)
      rw [List.cons_append, splitLinesLF, if_neg hc, ih ht]
      rfl

/-! ## The decimal serialization round trip -/

theorem natToDigitsAux_extra :
    ∀ (n f₁ f₂ : Nat), n < f₁ → n < f₂ →
      natToDigitsAux f₁ n = natToDigitsAux f₂ n := by
  intro n
  induction n using Nat.strongRecOn with
  | _ n ih =>
      intro f₁ f₂ h₁ h₂
      match f₁, f₂ with
      | g₁ + 1, g₂ + 1 =>
          simp only [natToDigitsAux]
          by_cases hn : n < 10
          · simp [hn]
          · have hdiv : n / 10 < n := Nat.div_lt_self (by omega) (by omega)
            rw [if_neg hn, if_neg hn, ih (n / 10) hdiv g₁ g₂ (by omega) (by omega)]

theorem natToDigits_eq (n : Nat) :
    natToDigits n =
      if n < 10 then [digitChar n]
      else natToDigits (n / 10) ++ [digitChar (n % 10)] := by
  by_cases hn : n < 10
  · simp [natToDigits, natToDigitsAux, hn]
  · have hdiv : n / 10 < n := Nat.div_lt_self (by omega) (by omega)
    rw [if_neg hn, natToDigits, natToDigitsAux, if_neg hn]
    congr 1
    exact natToDigitsAux_extra (n / 10) n (n / 10 + 1) (by omega) (by omega)

theorem digitChar_mem (d : Nat) (h : d < 10) : digitChar d ∈ str "0123456789" := by
  interval_cases d <;> decide

theorem natToDigits_mem :
    ∀ (fuel n : Nat), ∀ c ∈ natToDigitsAux fuel n, c ∈ str "0123456789" := by
  intro fuel
  induction fuel with
  | zero => intro n c hc; simp [natToDigitsAux] at hc
  | succ f ih =>
      intro n c hc
      simp only [natToDigitsAux] at hc
      by_cases hn : n < 10
      · rw [if_pos hn] at hc
        simp at hc
        exact hc ▸ digitChar_mem n hn
      · rw [if_neg hn] at hc
        rcases List.mem_append.mp hc with h | h
        · exact ih (n / 10) c h
        · simp at h
          exact h ▸ digitChar_mem (n % 10) (Nat.mod_lt _ (by omega))

theorem natToDigits_ne_nil (n : Nat) : natToDigits n ≠ [] := by
  rw [natToDigits, natToDigitsAux]
  by_cases hn : n < 10
  · simp [hn]
  · simp [hn]

theorem parseNatAux_append (l₁ l₂ : Str) (acc : Nat) :
    parseNatAux (l₁ ++ l₂) acc =
      match parseNatAux l₁ acc with
      | some a => parseNatAux l₂ a
      | none => none := by
  induction l₁ generalizing acc with
  | nil => simp [parseNatAux]
  | cons c t ih =>
      simp only [List.cons_append, parseNatAux]
      cases digitVal? c with
      | some d => exact ih (acc * 10 + d)
      | none => rfl

theorem digitVal?_digitChar (d : Nat) (h : d < 10) :
    digitVal? (digitChar d) = some d := by
  interval_cases d <;> decide

theorem parseNatAux_natToDigits :
    ∀ n acc : Nat, parseNatAux (natToDigits n) acc =
      some (acc * 10 ^ (natToDigits n).length + n) := by
  intro n
  induction n using Nat.strongRecOn with
  | _ n ih =>
      intro acc
      by_cases hn : n < 10
      · rw [natToDigits_eq, if_pos hn]
        simp [parseNatAux, digitVal?_digitChar n hn]
      · have hdiv : n / 10 < n := Nat.div_lt_self (by omega) (by omega)
        rw [natToDigits_eq, if_neg hn, parseNatAux_append, ih (n / 10) hdiv acc]
        have hmod : n % 10 < 10 := Nat.mod_lt _ (by omega)
        simp only [parseNatAux, digitVal?_digitChar (n % 10) hmod]
        have hlen : (natToDigits (n / 10) ++ [digitChar (n % 10)]).length =
            (natToDigits (n / 10)).length + 1 := by simp
        rw [hlen]
        congr 1
        have hdm : 10 * (n / 10) + n % 10 = n := Nat.div_add_mod n 10
        have hpow : 10 ^ ((natToDigits (n / 10)).length + 1) =
            10 ^ (natToDigits (n / 10)).length * 10 := pow_succ 10 _
        rw [hpow]
        ring_nf
        omega

theorem intToStr_mem (i : Int) : ∀ c ∈ intToStr i, c ∈ str "-0123456789" := by
  have hsub : ∀ x ∈ str "0123456789", x ∈ str "-0123456789" := by decide
  intro c hc
  rw [intToStr] at hc
  by_cases hi : i < 0
  · rw [if_pos hi] at hc
    rcases List.mem_cons.mp hc with h | h
    · rw [h]; decide
    · exact hsub c (natToDigits_mem _ _ c h)
  · rw [if_neg hi] at hc
    exact hsub c (natToDigits_mem _ _ c hc)

theorem pyInt_intToStr (i : Int) : pyInt (intToStr i) = some i := by
  have hdig : ∀ x ∈ str "0123456789", x ≠ '-' ∧ x ≠ '+' := by decide
  by_cases hi : i < 0
  · rw [intToStr, if_pos hi]
    simp [pyInt, natToDigits_ne_nil, parseNatAux_natToDigits]
    omega
  · rw [intToStr, if_neg hi]
    cases h : natToDigits i.toNat with
    | nil => exact absurd h (natToDigits_ne_nil _)
    | cons c rest =>
        have hc : c ∈ str "0123456789" := by
          have hmem : c ∈ natToDigits i.toNat := h ▸ List.mem_cons_self c rest
          exact natToDigits_mem _ _ c hmem
        have h1 : c ≠ '-' := (hdig c hc).1
        have h2 : c ≠ '+' := (hdig c hc).2
        simp only [pyInt, h1, h2, if_false, ite_false]
        rw [← h, parseNatAux_natToDigits]
        simp
        omega

theorem intToStr_strip (i : Int) : pyStrip (intToStr i) = intToStr i := by
  have hns : ∀ x ∈ str "-0123456789", ¬ pyIsSpace x := by decide
  exact pyStrip_eq_self_of_forall (fun c hc => hns c (intToStr_mem i c hc))

theorem intToStr_no_nl (i : Int) : '\n' ∉ intToStr i := by
  intro h
  exact absurd (intToStr_mem i '\n' h) (by decide)

/-! ## Comma-joined list fields -/

theorem joinComma_nil : joinComma [] = [] := by
  simp [joinComma, List.intercalate]

theorem joinComma_single (a : Str) : joinComma [a] = a := by
  simp [joinComma, List.intercalate]

theorem joinComma_cons₂ (a b : Str) (t : List Str) :
    joinComma (a :: b :: t) = a ++ ',' :: joinComma (b :: t) := by
  simp [joinComma, List.intercalate, List.intersperse_cons_cons]

theorem joinComma_mem :
    ∀ (l : List Str) (c : Char), c ∈ joinComma l →
      (∃ s ∈ l, c ∈ s) ∨ c = ',' := by
  intro l
  induction l with
  | nil => intro c hc; rw [joinComma_nil] at hc; simp at hc
  | cons a t ih =>
      intro c hc
      cases t with
      | nil =>
          rw [joinComma_single] at hc
          exact Or.inl ⟨a, List.mem_cons_self a [], hc⟩
      | cons b t' =>
          rw [joinComma_cons₂] at hc
          rcases List.mem_append.mp hc with h | h
          · exact Or.inl ⟨a, List.mem_cons_self a _, h⟩
          · rcases List.mem_cons.mp h with h | h
            · exact Or.inr h
            · rcases ih c h with ⟨s, hs, hcs⟩ | h
              · exact Or.inl ⟨s, List.mem_cons_of_mem a hs, hcs⟩
              · exact Or.inr h

theorem joinComma_no_nl (l : List Str) (h : ∀ s ∈ l, '\n' ∉ s) :
    '\n' ∉ joinComma l := by
  intro hmem
  rcases joinComma_mem l '\n' hmem with ⟨s, hs, hns⟩ | hcomma
  · exact h s hs hns
  · exact absurd hcomma (by decide)

theorem joinComma_head (a : Str) (t : List Str) :
    ∃ x : Str, joinComma (a :: t) = a ++ x := by
  cases t with
  | nil => exact ⟨[], by rw [joinComma_single, List.append_nil]⟩
  | cons b t' => exact ⟨',' :: joinComma (b :: t'), joinComma_cons₂ a b t'⟩

theorem joinComma_last :
    ∀ (l : List Str), l ≠ [] → ∃ (y : Str) (a : Str), a ∈ l ∧
      joinComma l = y ++ a := by
  intro l
  induction l with
  | nil => intro h; exact absurd rfl h
  | cons a t ih =>
      intro _
      cases t with
      | nil => exact ⟨[], a, List.mem_cons_self a [], by rw [joinComma_single]; rfl⟩
      | cons b t' =>
          obtain ⟨y, x, hx, hy⟩ := ih (by simp)
          refine ⟨a ++ ',' :: y, x, List.mem_cons_of_mem a hx, ?_⟩
          rw [joinComma_cons₂, hy]
          simp

theorem joinComma_strip (l : List Str)
    (h : ∀ s ∈ l, s ≠ [] ∧ pyStrip s = s) :
    pyStrip (joinComma l) = joinComma l := by
  cases l with
  | nil => rw [joinComma_nil]; rfl
  | cons a t =>
      obtain ⟨ha, hastrip⟩ := h a (List.mem_cons_self a t)
      obtain ⟨x, hx⟩ := joinComma_head a t
      obtain ⟨y, z, hz, hy⟩ := joinComma_last (a :: t) (by simp)
      obtain ⟨hzne, hzstrip⟩ := h z hz
      have hdrop : List.dropWhile pyIsSpace (joinComma (a :: t)) =
          joinComma (a :: t) := by
        rw [hx]
        exact dropWhile_append_keep x (pyStrip_parts hastrip).1 ha
      have hrdrop : List.rdropWhile pyIsSpace (joinComma (a :: t)) =
          joinComma (a :: t) := by
        rw [hy]
        exact rdropWhile_append_keep y (pyStrip_parts hzstrip).2 hzne
      rw [pyStrip, hdrop, hrdrop]

/-! ## Reading back one `KEY: VALUE` line -/

theorem splitLinesLF_saveLine (k v : Str) (rest : Str)
    (hk : '\n' ∉ k) (hv : '\n' ∉ v) :
    splitLinesLF (saveLine k v ++ rest) = saveLine k v :: splitLinesLF rest := by
  have hw : '\n' ∉ k ++ ':' :: ' ' :: v := by
    intro h
    rcases List.mem_append.mp h with h | h
    · exact hk h
    · rcases List.mem_cons.mp h with h | h
      · exact absurd h (by decide)
      · rcases List.mem_cons.mp h with h | h
        · exact absurd h (by decide)
        · exact hv h
  have heq : saveLine k v ++ rest = (k ++ ':' :: ' ' :: v) ++ '\n' :: rest := by
    simp [saveLine]
  rw [heq, splitLinesLF_line _ _ hw]
  congr 1

theorem pyStrip_space_cons (v : Str) (hv : pyStrip v = v) :
    pyStrip (' ' :: v) = v := by
  have hdrop : List.dropWhile pyIsSpace (' ' :: v) =
      List.dropWhile pyIsSpace v := by
    simp [List.dropWhile_cons, show pyIsSpace ' ' = true from rfl]
  rw [pyStrip, hdrop, (pyStrip_parts hv).1]
  exact (pyStrip_parts hv).2

theorem pyStrip_saveLine (k v : Str) (hk : k ≠ [])
    (hkns : ∀ c ∈ k, ¬ pyIsSpace c) (hv : pyStrip v = v) :
    pyStrip (saveLine k v) =
      if v = [] then k ++ [':'] else k ++ ':' :: ' ' :: v := by
  have hdropLine : List.dropWhile pyIsSpace (saveLine k v) = saveLine k v := by
    cases k with
    | nil => exact absurd rfl hk
    | cons c t =>
        have hc : ¬ pyIsSpace c := hkns c (List.mem_cons_self c t)
        simp only [saveLine, List.cons_append, List.dropWhile_cons, hc,
          Bool.false_eq_true, if_false]
  have hsplit : saveLine k v = (k ++ ':' :: ' ' :: v) ++ ['\n'] := by
    simp [saveLine]
  rw [pyStrip, hdropLine, hsplit,
    List.rdropWhile_concat_pos _ _ '\n' (show pyIsSpace '\n' = true from rfl)]
  by_cases hve : v = []
  · subst hve
    have h1 : k ++ ':' :: ' ' :: [] = (k ++ [':']) ++ [' '] := by simp
    rw [if_pos rfl, h1,
      List.rdropWhile_concat_pos _ _ ' ' (show pyIsSpace ' ' = true from rfl),
      List.rdropWhile_concat_neg _ _ ':' (show ¬ pyIsSpace ':' = true from by decide)]
  · have h1 : k ++ ':' :: ' ' :: v = (k ++ [':', ' ']) ++ v := by simp
    rw [if_neg hve, h1,
      rdropWhile_append_keep _ (pyStrip_parts hv).2 hve]

theorem parseLines_saveLine (k v : Str) (rest : List Str) (data : PyDict Str)
    (hk : k ≠ []) (hkc : ∀ c ∈ k, ¬ pyIsSpace c ∧ c ≠ ':')
    (hv : pyStrip v = v) :
    parseLines (saveLine k v :: rest) data =
      parseLines rest (dictInsert data k v) := by
  have hkns : ∀ c ∈ k, ¬ pyIsSpace c := fun c hc => (hkc c hc).1
  have hknc : ':' ∉ k := fun hc => (hkc ':' hc).2 rfl
  have hcol : ':' ∈ saveLine k v := by simp [saveLine]
  have hstripk : pyStrip k = k := pyStrip_eq_self_of_forall hkns
  by_cases hve : v = []
  · subst hve
    have hsp : splitFirstColon (pyStrip (saveLine k [])) = some (k, []) := by
      rw [pyStrip_saveLine k [] hk hkns hv, if_pos rfl]
      exact splitFirstColon_append k [] hknc
    simp only [parseLines, hcol, if_true, hsp, hstripk]
    rfl
  · have hsp : splitFirstColon (pyStrip (saveLine k v)) = some (k, ' ' :: v) := by
      rw [pyStrip_saveLine k v hk hkns hv, if_neg hve]
      exact splitFirstColon_append k (' ' :: v) hknc
    simp only [parseLines, hcol, if_true, hsp, hstripk,
      pyStrip_space_cons v hv]

/-! ## Dictionary and list-field round trips -/

theorem dictGet?_insert_self {α : Type} :
    ∀ (d : PyDict α) (k : Str) (v : α), dictGet? (dictInsert d k v) k = some v := by
  intro d k v
  induction d with
  | nil => simp [dictInsert, dictGet?]
  | cons p t ih =>
      obtain ⟨k', v'⟩ := p
      by_cases h : k' = k
      · simp [dictInsert, dictGet?, h]
      · simp [dictInsert, dictGet?, h, ih]

theorem parseListField_joinComma (l : List Str)
    (h : ∀ s ∈ l, s ≠ [] ∧ ',' ∉ s) :
    parseListField (joinComma l) = l := by
  by_cases hl : l = []
  · subst hl
    rw [joinComma_nil]
    rfl
  · have hsplit : List.splitOn ',' ([','].intercalate l) = l :=
      List.splitOn_intercalate l ',' (fun s hs => (h s hs).2) hl
    have hj : ([','].intercalate l) = joinComma l := rfl
    rw [hj] at hsplit
    by_cases hje : joinComma l = []
    · rw [hje, List.splitOn_nil] at hsplit
      obtain ⟨hne, -⟩ := h [] (by rw [← hsplit]; exact List.mem_cons_self _ _)
      exact absurd rfl hne
    · rw [parseListField, if_neg hje]
      exact hsplit

theorem validate_toDict (c : Character) :
    validate_character_data (Character.toDict c) = Except.ok true := rfl

/-- Evaluating `load_character_content` once the line parse is known. -/
theorem load_character_content_of_parse (content : Str) (d : PyDict Str)
    (h : parseLines (pyReadlines content) [] = Except.ok d) :
    load_character_content content = (do
      let name ← req (dictGet? d (str "NAME"))
      let cls ← req (dictGet? d (str "CLASS"))
      let level ← req ((dictGet? d (str "LEVEL")).bind pyInt)
      let health ← req ((dictGet? d (str "HEALTH")).bind pyInt)
      let max_health ← req ((dictGet? d (str "MAX_HEALTH")).bind pyInt)
      let strength ← req ((dictGet? d (str "STRENGTH")).bind pyInt)
      let magic ← req ((dictGet? d (str "MAGIC")).bind pyInt)
      let experience ← req ((dictGet? d (str "EXPERIENCE")).bind pyInt)
      let gold ← req ((dictGet? d (str "GOLD")).bind pyInt)
      let inventory ← req ((dictGet? d (str "INVENTORY")).map parseListField)
      let active_quests ← req ((dictGet? d (str "ACTIVE_QUESTS")).map parseListField)
      let completed_quests ←
        req ((dictGet? d (str "COMPLETED_QUESTS")).map parseListField)
      let character : Character :=
        { name := name, className := cls, level := level, health := health,
          max_health := max_health, strength := strength, magic := magic,
          experience := experience, gold := gold, inventory := inventory,
          active_quests := active_quests, completed_quests := completed_quests }
      let _ ← validate_character_data character.toDict
      pure character) := by
  unfold load_character_content
  rw [h]
  rfl

theorem splitLinesLF_saveLine_nil (k v : Str)
    (hk : '\n' ∉ k) (hv : '\n' ∉ v) :
    splitLinesLF (saveLine k v) = [saveLine k v] := by
  have h := splitLinesLF_saveLine k v [] hk hv
  rw [List.append_nil] at h
  rw [h]
  rfl

theorem intToStr_no_cr (i : Int) : '\r' ∉ intToStr i := by
  intro h
  exact absurd (intToStr_mem i '\r' h) (by decide)

theorem joinComma_no_cr (l : List Str) (h : ∀ s ∈ l, '\r' ∉ s) :
    '\r' ∉ joinComma l := by
  intro hmem
  rcases joinComma_mem l '\r' hmem with ⟨s, hs, hcs⟩ | hcomma
  · exact h s hs hcs
  · exact absurd hcomma (by decide)

theorem saveLine_no_cr (k v : Str) (hk : '\r' ∉ k) (hv : '\r' ∉ v) :
    '\r' ∉ saveLine k v := by
  intro h
  simp only [saveLine, List.mem_append, List.mem_cons,
    List.mem_singleton] at h
  rcases h with (h | h | h | h) | h
  · exact hk h
  · exact absurd h (by decide)
  · exact absurd h (by decide)
  · exact hv h
  · exact absurd h (by decide)

def aragonSampleC1 : Character :=
  ⟨str "Aragon", str "Warrior", 1, 120, 120, 15, 5, 0, 100,
    [str "potion", str "sword"], [str "first_quest"], [str "tutorial"]⟩

def spacedSampleC1 : Character :=
  ⟨str " bob", str "Warrior", 1, 120, 120, 15, 5, 0, 100, [], [], []⟩

/-- A syntactically well-formed save file whose values violate every range
invariant of the data model: empty name, unknown class, level 0, health
above `max_health`, negative gold. -/
def badSaveContent : Str :=
  str "NAME: \nCLASS: Necromancer\nLEVEL: 0\nHEALTH: 150\nMAX_HEALTH: 100\nSTRENGTH: 5\nMAGIC: 5\nEXPERIENCE: 0\nGOLD: -5\nINVENTORY: \nACTIVE_QUESTS: \nCOMPLETED_QUESTS: \n"

/-- The record `load_character` reconstructs from `badSaveContent`. -/
def badRecordC10 : Character :=
  ⟨[], str "Necromancer", 0, 150, 100, 5, 5, 0, -5, [], [], []⟩

/-! ## Properties of the level-up loop -/

theorem levelUpLoop_eq (c : Character) :
    levelUpLoop c =
      if c.level * 100 ≤ c.experience then levelUpLoop (levelStep c) else c := by
  rw [levelUpLoop]

theorem levelUpLoop_level_le (c : Character) : c.level ≤ (levelUpLoop c).level := by
  induction c using levelUpLoop.induct with
  | case1 c hc ih =>
      rw [levelUpLoop_eq, if_pos hc]
      have hstep : (levelStep c).level = c.level + 1 := rfl
      omega
  | case2 c hc =>
      rw [levelUpLoop_eq, if_neg hc]

theorem levelUpLoop_health :
    ∀ c : Character, 0 ≤ c.health → c.health ≤ c.max_health →
      0 ≤ (levelUpLoop c).health ∧ (levelUpLoop c).health ≤ (levelUpLoop c).max_health := by
  intro c
  induction c using levelUpLoop.induct with
  | case1 c hc ih =>
      intro h0 h1
      rw [levelUpLoop_eq, if_pos hc]
      exact ih (by simp [levelStep]; omega) (by simp [levelStep])
  | case2 c hc =>
      intro h0 h1
      rw [levelUpLoop_eq, if_neg hc]
      exact ⟨h0, h1⟩

theorem levelUpLoopFuel_adequate :
    ∀ c : Character, ∃ n : Nat, levelUpLoopFuel n c = some (levelUpLoop c) := by
  intro c
  induction c using levelUpLoop.induct with
  | case1 c hc ih =>
      obtain ⟨n, hn⟩ := ih
      exact ⟨n + 1, by rw [levelUpLoop_eq, if_pos hc]; simpa [levelUpLoopFuel, hc] using hn⟩
  | case2 c hc =>
      exact ⟨0, by rw [levelUpLoop_eq, if_neg hc]; simp [levelUpLoopFuel, hc]⟩

/-! ## Claims about the stat/progression engine -/

/-- C5: for every character with `health <= 0` and every amount,
`gain_experience` fails with the `CharacterDead` error kind and leaves
every field of the record unchanged. -/
theorem gain_experience_dead_unchanged (c : Character) (n : Int)
    (h : c.health ≤ 0) :
    gain_experience c n = (c, Except.error CharError.characterDead) := by
  simp [gain_experience, is_character_dead, h]

theorem gain_experience_dead_unchanged_witness :
    gain_experience deadSampleC5 250 =
      (deadSampleC5, Except.error CharError.characterDead) :=
  gain_experience_dead_unchanged deadSampleC5 250 (by decide)

/-- C6: `add_gold` fails with the `InsufficientGold` error kind (the
`ValueError` raised by the source) exactly when `gold + amount < 0`,
leaving the record unchanged on failure; otherwise it stores `gold + amount`
and returns the new total; in particular spending exactly the balance
succeeds leaving 0 gold, and spending one more fails. -/
theorem add_gold_spec (c : Character) (amount : Int) :
    ((add_gold c amount).2 = Except.error CharError.valueError ↔
      c.gold + amount < 0) ∧
    (c.gold + amount < 0 →
      add_gold c amount = (c, Except.error CharError.valueError)) ∧
    (0 ≤ c.gold + amount →
      add_gold c amount =
        ({ c with gold := c.gold + amount }, Except.ok (c.gold + amount))) ∧
    add_gold c (-c.gold) = ({ c with gold := 0 }, Except.ok 0) ∧
    add_gold c (-c.gold - 1) = (c, Except.error CharError.valueError) := by
  have hzero : c.gold + -c.gold = 0 := by ring
  have hneg : c.gold + (-c.gold - 1) = -1 := by ring
  refine ⟨⟨fun h => ?_, fun h => ?_⟩, fun h => ?_, fun h => ?_, ?_, ?_⟩
  · by_contra hn
    push_neg at hn
    simp [add_gold, not_lt.mpr hn] at h
  · simp [add_gold, h]
  · simp [add_gold, h]
  · simp [add_gold, not_lt.mpr h]
  · simp [add_gold, hzero]
  · simp [add_gold, hneg]

theorem add_gold_spec_witness :
    (add_gold goldSampleC6 (-150) =
      (goldSampleC6, Except.error CharError.valueError)) ∧
    (add_gold goldSampleC6 50 =
      ({ goldSampleC6 with gold := 150 }, Except.ok 150)) :=
  ⟨(add_gold_spec goldSampleC6 (-150)).2.1 (by decide),
   (add_gold_spec goldSampleC6 50).2.2.1 (by decide)⟩

/-- C7 (amended): `heal_character` applies
`health = min(health + amount, max_health)` and returns the delta actually
applied, for every character — dead characters included: the source has no
death gate, so healing a dead character is not a no-op. -/
theorem heal_character_spec (c : Character) (amount : Int) :
    heal_character c amount =
      ({ c with health := min (c.health + amount) c.max_health },
        min (c.health + amount) c.max_health - c.health) := rfl

/-- C7 counterexample: healing a dead character (`health == 0`) is not a
no-op and does not return 0 — the code heals it like anyone else. -/
theorem heal_dead_not_noop :
    deadSampleC7.health = 0 ∧
    heal_character deadSampleC7 30 = ({ deadSampleC7 with health := 30 }, 30) ∧
    ¬ ((heal_character deadSampleC7 30).1 = deadSampleC7 ∧
        (heal_character deadSampleC7 30).2 = 0) := by decide

/-- C4 (amended): the health-bounds invariant `0 ≤ health ≤ max_health` is
preserved by `gain_experience` and `add_gold` for every argument, by
`heal_character` for every nonnegative amount, and by `revive_character`. -/
theorem health_invariant_preserved (c : Character)
    (h0 : 0 ≤ c.health) (h1 : c.health ≤ c.max_health) :
    (∀ xp : Int, 0 ≤ ((gain_experience c xp).1).health ∧
      ((gain_experience c xp).1).health ≤ ((gain_experience c xp).1).max_health) ∧
    (∀ amount : Int, 0 ≤ ((add_gold c amount).1).health ∧
      ((add_gold c amount).1).health ≤ ((add_gold c amount).1).max_health) ∧
    (∀ amount : Int, 0 ≤ amount →
      0 ≤ ((heal_character c amount).1).health ∧
      ((heal_character c amount).1).health ≤ ((heal_character c amount).1).max_health) ∧
    (0 ≤ ((revive_character c).1).health ∧
      ((revive_character c).1).health ≤ ((revive_character c).1).max_health) := by
  refine ⟨fun xp => ?_, fun amount => ?_, fun amount ha => ?_, ?_⟩
  · by_cases hd : is_character_dead c
    · have : (gain_experience c xp).1 = c := by simp [gain_experience, hd]
      rw [this]
      exact ⟨h0, h1⟩
    · simp only [gain_experience, hd, Bool.false_eq_true, if_false]
      exact levelUpLoop_health _ (by simpa using h0) (by simpa using h1)
  · by_cases hlt : c.gold + amount < 0
    · have : (add_gold c amount).1 = c := by simp [add_gold, hlt]
      rw [this]
      exact ⟨h0, h1⟩
    · have h2 : (add_gold c amount).1 = { c with gold := c.gold + amount } := by
        simp [add_gold, hlt]
      rw [h2]
      exact ⟨h0, h1⟩
  · constructor
    · show 0 ≤ min (c.health + amount) c.max_health
      omega
    · show min (c.health + amount) c.max_health ≤ c.max_health
      omega
  · by_cases hd : is_character_dead c
    · have hre : (revive_character c).1 =
          { c with health := Int.fdiv c.max_health 2 } := by
        simp [revive_character, hd]
      rw [hre]
      have hmax : 0 ≤ c.max_health := le_trans h0 h1
      obtain ⟨k, hk⟩ := Int.eq_ofNat_of_zero_le hmax
      have h2 : ((2 : Nat) : Int) = (2 : Int) := rfl
      constructor
      · show 0 ≤ Int.fdiv c.max_health 2
        rw [hk, ← h2, ← Int.ofNat_fdiv]
        exact Int.ofNat_nonneg _
      · show Int.fdiv c.max_health 2 ≤ c.max_health
        rw [hk, ← h2, ← Int.ofNat_fdiv]
        exact Int.ofNat_le.mpr (Nat.div_le_self _ _)
    · have hre : (revive_character c).1 = c := by simp [revive_character, hd]
      rw [hre]
      exact ⟨h0, h1⟩

theorem health_invariant_preserved_witness :
    (0 ≤ ((gain_experience invSampleC4 250).1).health ∧
      ((gain_experience invSampleC4 250).1).health ≤
        ((gain_experience invSampleC4 250).1).max_health) ∧
    (0 ≤ ((heal_character invSampleC4 30).1).health ∧
      ((heal_character invSampleC4 30).1).health ≤
        ((heal_character invSampleC4 30).1).max_health) :=
  ⟨(health_invariant_preserved invSampleC4 (by decide) (by decide)).1 250,
   (health_invariant_preserved invSampleC4 (by decide) (by decide)).2.2.1 30
     (by decide)⟩

/-- C4 counterexample: a negative healing amount drives health below 0, so
the invariant is not preserved for every argument value — `heal_character`
has no lower clamp. -/
theorem health_invariant_counterexample :
    (0 ≤ negHealSampleC4.health ∧
      negHealSampleC4.health ≤ negHealSampleC4.max_health) ∧
    (heal_character negHealSampleC4 (-60)).1.health = -10 ∧
    ¬ 0 ≤ (heal_character negHealSampleC4 (-60)).1.health := by decide

/-- C2: on a living character `gain_experience` never decreases the level;
the threshold for the first level-up is exactly `level * 100` (an award
short of it only adds to `experience`); and a gain that crosses exactly one
threshold leaves `experience` equal to the remainder
`experience + amount - level * 100` and health fully restored to the new
`max_health`. -/
theorem gain_experience_level_spec (c : Character) (xp : Int)
    (halive : is_character_dead c = false) :
    c.level ≤ ((gain_experience c xp).1).level ∧
    (c.experience + xp < c.level * 100 →
      (gain_experience c xp).1 = { c with experience := c.experience + xp }) ∧
    (c.level * 100 ≤ c.experience + xp →
      c.experience + xp - c.level * 100 < (c.level + 1) * 100 →
      ((gain_experience c xp).1).level = c.level + 1 ∧
      ((gain_experience c xp).1).experience =
        c.experience + xp - c.level * 100 ∧
      ((gain_experience c xp).1).health = ((gain_experience c xp).1).max_health) := by
  simp only [gain_experience, halive, Bool.false_eq_true, if_false]
  refine ⟨?_, fun h => ?_, fun h1 h2 => ?_⟩
  · have := levelUpLoop_level_le { c with experience := c.experience + xp }
    simpa using this
  · rw [levelUpLoop_eq, if_neg (by simpa using not_le.mpr h)]
  · rw [levelUpLoop_eq, if_pos (by simpa using h1), levelUpLoop_eq,
      if_neg (by simp [levelStep]; omega)]
    refine ⟨by simp [levelStep], by simp [levelStep], by simp [levelStep]⟩

theorem gain_experience_level_spec_witness :
    aliveSampleC2.level ≤ ((gain_experience aliveSampleC2 150).1).level ∧
    ((gain_experience aliveSampleC2 150).1).level = aliveSampleC2.level + 1 ∧
    ((gain_experience aliveSampleC2 150).1).experience =
      aliveSampleC2.experience + 150 - aliveSampleC2.level * 100 ∧
    ((gain_experience aliveSampleC2 150).1).health =
      ((gain_experience aliveSampleC2 150).1).max_health :=
  ⟨(gain_experience_level_spec aliveSampleC2 150 (by decide)).1,
   (gain_experience_level_spec aliveSampleC2 150 (by decide)).2.2
     (by decide) (by decide)⟩

/-- C8: the level-up loop of `gain_experience` terminates for every living
character and award: some finite fuel makes the fuel-indexed loop exit with
exactly the state `gain_experience` produces. -/
theorem gain_experience_terminates (c : Character) (xp : Int)
    (halive : is_character_dead c = false) :
    ∃ n : Nat, levelUpLoopFuel n { c with experience := c.experience + xp } =
      some ((gain_experience c xp).1) := by
  obtain ⟨n, hn⟩ :=
    levelUpLoopFuel_adequate { c with experience := c.experience + xp }
  exact ⟨n, by simpa [gain_experience, halive] using hn⟩

theorem gain_experience_terminates_witness :
    ∃ n : Nat,
      levelUpLoopFuel n
          { aliveSampleC8 with
              experience := aliveSampleC8.experience + 1000 } =
        some ((gain_experience aliveSampleC8 1000).1) :=
  gain_experience_terminates aliveSampleC8 1000 (by decide)

/-- C9: for every name, `create_character` on each of the four valid classes
returns a record with `health == max_health` equal to the class's base
health, `level == 1`, `experience == 0` and empty inventory and quest
lists; on any other class it fails with the `InvalidClass` error kind. -/
theorem create_character_spec (name character_class : Str) :
    (character_class = str "Warrior" ∨ character_class = str "Mage" ∨
        character_class = str "Rogue" ∨ character_class = str "Cleric" →
      ∃ c, create_character name character_class = Except.ok c ∧
        c.health = c.max_health ∧
        classBase character_class = some (c.max_health, c.strength, c.magic) ∧
        c.level = 1 ∧ c.experience = 0 ∧
        c.inventory = [] ∧ c.active_quests = [] ∧ c.completed_quests = []) ∧
    (character_class ≠ str "Warrior" → character_class ≠ str "Mage" →
      character_class ≠ str "Rogue" → character_class ≠ str "Cleric" →
      create_character name character_class =
        Except.error CharError.invalidCharacterClass) := by
  constructor
  · rintro (rfl | rfl | rfl | rfl) <;>
      exact ⟨_, rfl, rfl, rfl, rfl, rfl, rfl, rfl, rfl⟩
  · intro h1 h2 h3 h4
    simp [create_character, classBase, h1, h2, h3, h4]

theorem create_character_spec_witness :
    (∃ c, create_character (str "Aragon") (str "Mage") = Except.ok c ∧
      c.health = c.max_health ∧
      classBase (str "Mage") = some (c.max_health, c.strength, c.magic) ∧
      c.level = 1 ∧ c.experience = 0 ∧
      c.inventory = [] ∧ c.active_quests = [] ∧ c.completed_quests = []) ∧
    create_character (str "Aragon") (str "Necromancer") =
      Except.error CharError.invalidCharacterClass :=
  ⟨(create_character_spec (str "Aragon") (str "Mage")).1
     (Or.inr (Or.inl rfl)),
   (create_character_spec (str "Aragon") (str "Necromancer")).2
     (by decide) (by decide) (by decide) (by decide)⟩

/-! ## The end-to-end Warrior scenario (spec §8) -/

/-- Evaluation of `gain_experience(250)` on the revived level-1 Warrior:
250 XP crosses the level-1 threshold (100), leaving 150 XP, which is below
the level-2 threshold (200), so exactly one level-up happens. -/
theorem scenario_gain_eval :
    gain_experience
        ⟨str "Aragon", str "Warrior", 1, 60, 120, 15, 5, 0, 100, [], [], []⟩
        250 =
      (⟨str "Aragon", str "Warrior", 2, 130, 130, 17, 7, 150, 100, [], [], []⟩,
        Except.ok 2) := by
  have halive :
      is_character_dead
        ⟨str "Aragon", str "Warrior", 1, 60, 120, 15, 5, 0, 100, [], [], []⟩ =
        false := by decide
  have hstep :
      levelUpLoop
          ⟨str "Aragon", str "Warrior", 1, 60, 120, 15, 5, 250, 100, [], [], []⟩ =
        ⟨str "Aragon", str "Warrior", 2, 130, 130, 17, 7, 150, 100, [], [], []⟩ := by
    rw [levelUpLoop_eq]
    norm_num [levelStep]
    rw [levelUpLoop_eq]
    norm_num
  simp only [gain_experience, halive, Bool.false_eq_true, if_false]
  norm_num [hstep]

/-- C3 counterexample: in the spec's scenario the freshly created Warrior
(health 120), reduced to health 0, revived to health 60, then awarded 250
XP, ends at level 2 with experience 150 — not at level 3 with experience 50
as the claim states — because the level-2 threshold is `2 * 100 = 200 > 150`. -/
theorem warrior_scenario_counterexample :
    create_character (str "Aragon") (str "Warrior") =
      Except.ok ⟨str "Aragon", str "Warrior", 1, 120, 120, 15, 5, 0, 100, [], [], []⟩ ∧
    (gain_experience
        ⟨str "Aragon", str "Warrior", 1, 0, 120, 15, 5, 0, 100, [], [], []⟩ 250).2 =
      Except.error CharError.characterDead ∧
    revive_character
        ⟨str "Aragon", str "Warrior", 1, 0, 120, 15, 5, 0, 100, [], [], []⟩ =
      (⟨str "Aragon", str "Warrior", 1, 60, 120, 15, 5, 0, 100, [], [], []⟩, true) ∧
    ¬ ((gain_experience
          ⟨str "Aragon", str "Warrior", 1, 60, 120, 15, 5, 0, 100, [], [], []⟩
          250).1.level = 3 ∧
        (gain_experience
          ⟨str "Aragon", str "Warrior", 1, 60, 120, 15, 5, 0, 100, [], [], []⟩
          250).1.experience = 50) := by
  refine ⟨by decide, by decide, by decide, ?_⟩
  rw [scenario_gain_eval]
  decide

/-- C3 (amended): the scenario — create the Warrior (health = max_health =
120), reduce to health 0, `gain_experience` fails `CharacterDead`, revive
to health 60, then `gain_experience(250)` with the level-1 threshold 100 —
ends at level 2 with experience 150 and health equal to the new
`max_health` (130). -/
theorem warrior_scenario_spec :
    create_character (str "Aragon") (str "Warrior") =
      Except.ok ⟨str "Aragon", str "Warrior", 1, 120, 120, 15, 5, 0, 100, [], [], []⟩ ∧
    (gain_experience
        ⟨str "Aragon", str "Warrior", 1, 0, 120, 15, 5, 0, 100, [], [], []⟩ 250).2 =
      Except.error CharError.characterDead ∧
    revive_character
        ⟨str "Aragon", str "Warrior", 1, 0, 120, 15, 5, 0, 100, [], [], []⟩ =
      (⟨str "Aragon", str "Warrior", 1, 60, 120, 15, 5, 0, 100, [], [], []⟩, true) ∧
    (gain_experience
        ⟨str "Aragon", str "Warrior", 1, 60, 120, 15, 5, 0, 100, [], [], []⟩ 250).1 =
      ⟨str "Aragon", str "Warrior", 2, 130, 130, 17, 7, 150, 100, [], [], []⟩ ∧
    (gain_experience
        ⟨str "Aragon", str "Warrior", 1, 60, 120, 15, 5, 0, 100, [], [], []⟩
        250).1.health =
      (gain_experience
        ⟨str "Aragon", str "Warrior", 1, 60, 120, 15, 5, 0, 100, [], [], []⟩
        250).1.max_health := by
  refine ⟨by decide, by decide, by decide, ?_, ?_⟩ <;> rw [scenario_gain_eval]


/-! ## Claims about persistence and validation -/

theorem dict12Get (v1 v2 v3 v4 v5 v6 v7 v8 v9 v10 v11 v12 : Str) :
    dictGet? [(str "NAME", v1), (str "CLASS", v2), (str "LEVEL", v3), (str "HEALTH", v4), (str "MAX_HEALTH", v5), (str "STRENGTH", v6), (str "MAGIC", v7), (str "EXPERIENCE", v8), (str "GOLD", v9), (str "INVENTORY", v10), (str "ACTIVE_QUESTS", v11), (str "COMPLETED_QUESTS", v12)] (str "NAME") = some v1 ∧
    dictGet? [(str "NAME", v1), (str "CLASS", v2), (str "LEVEL", v3), (str "HEALTH", v4), (str "MAX_HEALTH", v5), (str "STRENGTH", v6), (str "MAGIC", v7), (str "EXPERIENCE", v8), (str "GOLD", v9), (str "INVENTORY", v10), (str "ACTIVE_QUESTS", v11), (str "COMPLETED_QUESTS", v12)] (str "CLASS") = some v2 ∧
    dictGet? [(str "NAME", v1), (str "CLASS", v2), (str "LEVEL", v3), (str "HEALTH", v4), (str "MAX_HEALTH", v5), (str "STRENGTH", v6), (str "MAGIC", v7), (str "EXPERIENCE", v8), (str "GOLD", v9), (str "INVENTORY", v10), (str "ACTIVE_QUESTS", v11), (str "COMPLETED_QUESTS", v12)] (str "LEVEL") = some v3 ∧
    dictGet? [(str "NAME", v1), (str "CLASS", v2), (str "LEVEL", v3), (str "HEALTH", v4), (str "MAX_HEALTH", v5), (str "STRENGTH", v6), (str "MAGIC", v7), (str "EXPERIENCE", v8), (str "GOLD", v9), (str "INVENTORY", v10), (str "ACTIVE_QUESTS", v11), (str "COMPLETED_QUESTS", v12)] (str "HEALTH") = some v4 ∧
    dictGet? [(str "NAME", v1), (str "CLASS", v2), (str "LEVEL", v3), (str "HEALTH", v4), (str "MAX_HEALTH", v5), (str "STRENGTH", v6), (str "MAGIC", v7), (str "EXPERIENCE", v8), (str "GOLD", v9), (str "INVENTORY", v10), (str "ACTIVE_QUESTS", v11), (str "COMPLETED_QUESTS", v12)] (str "MAX_HEALTH") = some v5 ∧
    dictGet? [(str "NAME", v1), (str "CLASS", v2), (str "LEVEL", v3), (str "HEALTH", v4), (str "MAX_HEALTH", v5), (str "STRENGTH", v6), (str "MAGIC", v7), (str "EXPERIENCE", v8), (str "GOLD", v9), (str "INVENTORY", v10), (str "ACTIVE_QUESTS", v11), (str "COMPLETED_QUESTS", v12)] (str "STRENGTH") = some v6 ∧
    dictGet? [(str "NAME", v1), (str "CLASS", v2), (str "LEVEL", v3), (str "HEALTH", v4), (str "MAX_HEALTH", v5), (str "STRENGTH", v6), (str "MAGIC", v7), (str "EXPERIENCE", v8), (str "GOLD", v9), (str "INVENTORY", v10), (str "ACTIVE_QUESTS", v11), (str "COMPLETED_QUESTS", v12)] (str "MAGIC") = some v7 ∧
    dictGet? [(str "NAME", v1), (str "CLASS", v2), (str "LEVEL", v3), (str "HEALTH", v4), (str "MAX_HEALTH", v5), (str "STRENGTH", v6), (str "MAGIC", v7), (str "EXPERIENCE", v8), (str "GOLD", v9), (str "INVENTORY", v10), (str "ACTIVE_QUESTS", v11), (str "COMPLETED_QUESTS", v12)] (str "EXPERIENCE") = some v8 ∧
    dictGet? [(str "NAME", v1), (str "CLASS", v2), (str "LEVEL", v3), (str "HEALTH", v4), (str "MAX_HEALTH", v5), (str "STRENGTH", v6), (str "MAGIC", v7), (str "EXPERIENCE", v8), (str "GOLD", v9), (str "INVENTORY", v10), (str "ACTIVE_QUESTS", v11), (str "COMPLETED_QUESTS", v12)] (str "GOLD") = some v9 ∧
    dictGet? [(str "NAME", v1), (str "CLASS", v2), (str "LEVEL", v3), (str "HEALTH", v4), (str "MAX_HEALTH", v5), (str "STRENGTH", v6), (str "MAGIC", v7), (str "EXPERIENCE", v8), (str "GOLD", v9), (str "INVENTORY", v10), (str "ACTIVE_QUESTS", v11), (str "COMPLETED_QUESTS", v12)] (str "INVENTORY") = some v10 ∧
    dictGet? [(str "NAME", v1), (str "CLASS", v2), (str "LEVEL", v3), (str "HEALTH", v4), (str "MAX_HEALTH", v5), (str "STRENGTH", v6), (str "MAGIC", v7), (str "EXPERIENCE", v8), (str "GOLD", v9), (str "INVENTORY", v10), (str "ACTIVE_QUESTS", v11), (str "COMPLETED_QUESTS", v12)] (str "ACTIVE_QUESTS") = some v11 ∧
    dictGet? [(str "NAME", v1), (str "CLASS", v2), (str "LEVEL", v3), (str "HEALTH", v4), (str "MAX_HEALTH", v5), (str "STRENGTH", v6), (str "MAGIC", v7), (str "EXPERIENCE", v8), (str "GOLD", v9), (str "INVENTORY", v10), (str "ACTIVE_QUESTS", v11), (str "COMPLETED_QUESTS", v12)] (str "COMPLETED_QUESTS") = some v12 :=
  ⟨rfl, rfl, rfl, rfl, rfl, rfl, rfl, rfl, rfl, rfl, rfl, rfl⟩

/-- C1 (amended): the save/load round trip restores every field, for every
record whose `name` is a whitespace-trimmed (in CPython's `str.strip()`
sense) string free of newlines, carriage returns, path separators `/` and
NUL bytes, whose `class` string is whitespace-trimmed and free of newlines
and carriage returns, and whose list fields contain only nonempty,
comma-free, newline- and carriage-return-free, whitespace-trimmed item
strings. -/
theorem load_save_roundtrip (c : Character) (fs : FileStore)
    (hname : pyStrip c.name = c.name) (hnameN : '\n' ∉ c.name)
    (hnameR : '\r' ∉ c.name) (_hnameSep : '/' ∉ c.name)
    (_hnameNul : '\x00' ∉ c.name)
    (hcls : pyStrip c.className = c.className) (hclsN : '\n' ∉ c.className)
    (hclsR : '\r' ∉ c.className)
    (hinv : ∀ s ∈ c.inventory,
      s ≠ [] ∧ ',' ∉ s ∧ '\n' ∉ s ∧ '\r' ∉ s ∧ pyStrip s = s)
    (hact : ∀ s ∈ c.active_quests,
      s ≠ [] ∧ ',' ∉ s ∧ '\n' ∉ s ∧ '\r' ∉ s ∧ pyStrip s = s)
    (hcomp : ∀ s ∈ c.completed_quests,
      s ≠ [] ∧ ',' ∉ s ∧ '\n' ∉ s ∧ '\r' ∉ s ∧ pyStrip s = s) :
    load_character c.name (save_character c fs) = Except.ok c := by
  have hinvN : ∀ s ∈ c.inventory, '\n' ∉ s := fun s hs => (hinv s hs).2.2.1
  have hactN : ∀ s ∈ c.active_quests, '\n' ∉ s := fun s hs => (hact s hs).2.2.1
  have hcompN : ∀ s ∈ c.completed_quests, '\n' ∉ s := fun s hs => (hcomp s hs).2.2.1
  have hinvR : ∀ s ∈ c.inventory, '\r' ∉ s := fun s hs => (hinv s hs).2.2.2.1
  have hactR : ∀ s ∈ c.active_quests, '\r' ∉ s := fun s hs => (hact s hs).2.2.2.1
  have hcompR : ∀ s ∈ c.completed_quests, '\r' ∉ s :=
    fun s hs => (hcomp s hs).2.2.2.1
  have hinvG : ∀ s ∈ c.inventory, s ≠ [] ∧ pyStrip s = s :=
    fun s hs => ⟨(hinv s hs).1, (hinv s hs).2.2.2.2⟩
  have hactG : ∀ s ∈ c.active_quests, s ≠ [] ∧ pyStrip s = s :=
    fun s hs => ⟨(hact s hs).1, (hact s hs).2.2.2.2⟩
  have hcompG : ∀ s ∈ c.completed_quests, s ≠ [] ∧ pyStrip s = s :=
    fun s hs => ⟨(hcomp s hs).1, (hcomp s hs).2.2.2.2⟩
  have hcr : '\r' ∉ save_content c := by
    have k1 : '\r' ∉ saveLine (str "NAME") c.name :=
      saveLine_no_cr _ _ (by decide) hnameR
    have k2 : '\r' ∉ saveLine (str "CLASS") c.className :=
      saveLine_no_cr _ _ (by decide) hclsR
    have k3 : '\r' ∉ saveLine (str "LEVEL") (intToStr c.level) :=
      saveLine_no_cr _ _ (by decide) (intToStr_no_cr _)
    have k4 : '\r' ∉ saveLine (str "HEALTH") (intToStr c.health) :=
      saveLine_no_cr _ _ (by decide) (intToStr_no_cr _)
    have k5 : '\r' ∉ saveLine (str "MAX_HEALTH") (intToStr c.max_health) :=
      saveLine_no_cr _ _ (by decide) (intToStr_no_cr _)
    have k6 : '\r' ∉ saveLine (str "STRENGTH") (intToStr c.strength) :=
      saveLine_no_cr _ _ (by decide) (intToStr_no_cr _)
    have k7 : '\r' ∉ saveLine (str "MAGIC") (intToStr c.magic) :=
      saveLine_no_cr _ _ (by decide) (intToStr_no_cr _)
    have k8 : '\r' ∉ saveLine (str "EXPERIENCE") (intToStr c.experience) :=
      saveLine_no_cr _ _ (by decide) (intToStr_no_cr _)
    have k9 : '\r' ∉ saveLine (str "GOLD") (intToStr c.gold) :=
      saveLine_no_cr _ _ (by decide) (intToStr_no_cr _)
    have k10 : '\r' ∉ saveLine (str "INVENTORY") (joinComma c.inventory) :=
      saveLine_no_cr _ _ (by decide) (joinComma_no_cr _ hinvR)
    have k11 : '\r' ∉ saveLine (str "ACTIVE_QUESTS") (joinComma c.active_quests) :=
      saveLine_no_cr _ _ (by decide) (joinComma_no_cr _ hactR)
    have k12 : '\r' ∉
        saveLine (str "COMPLETED_QUESTS") (joinComma c.completed_quests) :=
      saveLine_no_cr _ _ (by decide) (joinComma_no_cr _ hcompR)
    intro h
    simp only [save_content, List.append_assoc, List.mem_append] at h
    rcases h with h | h | h | h | h | h | h | h | h | h | h | h
    exacts [k1 h, k2 h, k3 h, k4 h, k5 h, k6 h, k7 h, k8 h, k9 h, k10 h,
      k11 h, k12 h]
  have hlines : pyReadlines (save_content c) = [
      saveLine (str "NAME") c.name,
      saveLine (str "CLASS") c.className,
      saveLine (str "LEVEL") (intToStr c.level),
      saveLine (str "HEALTH") (intToStr c.health),
      saveLine (str "MAX_HEALTH") (intToStr c.max_health),
      saveLine (str "STRENGTH") (intToStr c.strength),
      saveLine (str "MAGIC") (intToStr c.magic),
      saveLine (str "EXPERIENCE") (intToStr c.experience),
      saveLine (str "GOLD") (intToStr c.gold),
      saveLine (str "INVENTORY") (joinComma c.inventory),
      saveLine (str "ACTIVE_QUESTS") (joinComma c.active_quests),
      saveLine (str "COMPLETED_QUESTS") (joinComma c.completed_quests)] := by
    rw [pyReadlines, newlineTranslate_eq_self _ hcr]
    simp only [save_content, List.append_assoc]
    rw [splitLinesLF_saveLine _ _ _ (by decide) hnameN,
      splitLinesLF_saveLine _ _ _ (by decide) hclsN,
      splitLinesLF_saveLine _ _ _ (by decide) (intToStr_no_nl _),
      splitLinesLF_saveLine _ _ _ (by decide) (intToStr_no_nl _),
      splitLinesLF_saveLine _ _ _ (by decide) (intToStr_no_nl _),
      splitLinesLF_saveLine _ _ _ (by decide) (intToStr_no_nl _),
      splitLinesLF_saveLine _ _ _ (by decide) (intToStr_no_nl _),
      splitLinesLF_saveLine _ _ _ (by decide) (intToStr_no_nl _),
      splitLinesLF_saveLine _ _ _ (by decide) (intToStr_no_nl _),
      splitLinesLF_saveLine _ _ _ (by decide) (joinComma_no_nl _ hinvN),
      splitLinesLF_saveLine _ _ _ (by decide) (joinComma_no_nl _ hactN),
      splitLinesLF_saveLine_nil _ _ (by decide) (joinComma_no_nl _ hcompN)]
  have hparse : parseLines (pyReadlines (save_content c)) [] = Except.ok
      [(str "NAME", c.name), (str "CLASS", c.className),
        (str "LEVEL", intToStr c.level), (str "HEALTH", intToStr c.health),
        (str "MAX_HEALTH", intToStr c.max_health),
        (str "STRENGTH", intToStr c.strength), (str "MAGIC", intToStr c.magic),
        (str "EXPERIENCE", intToStr c.experience),
        (str "GOLD", intToStr c.gold), (str "INVENTORY", joinComma c.inventory),
        (str "ACTIVE_QUESTS", joinComma c.active_quests),
        (str "COMPLETED_QUESTS", joinComma c.completed_quests)] := by
    rw [hlines]
    rw [parseLines_saveLine _ _ _ _ (by decide) (by decide) hname,
      parseLines_saveLine _ _ _ _ (by decide) (by decide) hcls,
      parseLines_saveLine _ _ _ _ (by decide) (by decide) (intToStr_strip _),
      parseLines_saveLine _ _ _ _ (by decide) (by decide) (intToStr_strip _),
      parseLines_saveLine _ _ _ _ (by decide) (by decide) (intToStr_strip _),
      parseLines_saveLine _ _ _ _ (by decide) (by decide) (intToStr_strip _),
      parseLines_saveLine _ _ _ _ (by decide) (by decide) (intToStr_strip _),
      parseLines_saveLine _ _ _ _ (by decide) (by decide) (intToStr_strip _),
      parseLines_saveLine _ _ _ _ (by decide) (by decide) (intToStr_strip _),
      parseLines_saveLine _ _ _ _ (by decide) (by decide) (joinComma_strip _ hinvG),
      parseLines_saveLine _ _ _ _ (by decide) (by decide) (joinComma_strip _ hactG),
      parseLines_saveLine _ _ _ _ (by decide) (by decide) (joinComma_strip _ hcompG)]
    rfl
  obtain ⟨g1, g2, g3, g4, g5, g6, g7, g8, g9, g10, g11, g12⟩ :=
    dict12Get c.name c.className (intToStr c.level) (intToStr c.health)
      (intToStr c.max_health) (intToStr c.strength) (intToStr c.magic)
      (intToStr c.experience) (intToStr c.gold) (joinComma c.inventory)
      (joinComma c.active_quests) (joinComma c.completed_quests)
  have hInvEq : parseListField (joinComma c.inventory) = c.inventory :=
    parseListField_joinComma _ (fun s hs => ⟨(hinv s hs).1, (hinv s hs).2.1⟩)
  have hActEq : parseListField (joinComma c.active_quests) = c.active_quests :=
    parseListField_joinComma _ (fun s hs => ⟨(hact s hs).1, (hact s hs).2.1⟩)
  have hCompEq :
      parseListField (joinComma c.completed_quests) = c.completed_quests :=
    parseListField_joinComma _ (fun s hs => ⟨(hcomp s hs).1, (hcomp s hs).2.1⟩)
  have hfile : dictGet? (save_character c fs) (save_filename c.name) =
      some (save_content c) := dictGet?_insert_self fs _ _
  rw [load_character, hfile]
  show load_character_content (save_content c) = Except.ok c
  rw [load_character_content_of_parse _ _ hparse]
  simp only [g1, g2, g3, g4, g5, g6, g7, g8, g9, g10, g11, g12,
    Option.some_bind, Option.map_some', pyInt_intToStr, hInvEq, hActEq, hCompEq]
  rfl

theorem load_save_roundtrip_witness :
    load_character (str "Aragon") (save_character aragonSampleC1 []) =
      Except.ok aragonSampleC1 :=
  load_save_roundtrip aragonSampleC1 [] (by decide) (by decide) (by decide)
    (by decide) (by decide) (by decide) (by decide) (by decide) (by decide)
    (by decide) (by decide)

/-- C1 counterexample: a record that is valid in the claim's sense (all 12
fields present, integer numeric fields, comma-free whitespace-trimmed list
items) but whose name ` bob` carries leading whitespace does not round trip:
the loader's `strip()` returns the name `bob`. -/
theorem load_save_roundtrip_counterexample :
    load_character (str " bob") (save_character spacedSampleC1 []) =
      Except.ok { spacedSampleC1 with name := str "bob" } ∧
    ({ spacedSampleC1 with name := str "bob" } : Character) ≠ spacedSampleC1 := by
  decide

/-- C10: `validate_character_data` accepts every dictionary that has the 12
required fields with `int` numeric fields and `list` list fields, whatever
the values; consequently `load_character` can return records violating the
range invariants (negative gold, health above `max_health`, level 0, empty
name, class outside the four allowed ones). -/
theorem validate_structural_only (d : PyDict PyVal)
    (hkeys : ∀ k ∈ requiredFields, (dictGet? d k).isSome = true)
    (hnum : ∀ k ∈ numericFields, ∃ i : Int, dictGet? d k = some (PyVal.vint i))
    (hlist : ∀ k ∈ listFields,
      ∃ l : List Str, dictGet? d k = some (PyVal.vlist l)) :
    validate_character_data d = Except.ok true ∧
    (load_character_content badSaveContent = Except.ok badRecordC10 ∧
      badRecordC10.gold < 0 ∧ badRecordC10.max_health < badRecordC10.health ∧
      badRecordC10.level = 0 ∧ badRecordC10.name = [] ∧
      classBase badRecordC10.className = none) := by
  constructor
  · have h1 : requiredFields.all (fun k => (dictGet? d k).isSome) = true := by
      rw [List.all_eq_true]
      exact hkeys
    have h2 : numericFields.all (fun k =>
        match dictGet? d k with
        | some (.vint _) => true
        | _ => false) = true := by
      rw [List.all_eq_true]
      intro k hk
      obtain ⟨i, hi⟩ := hnum k hk
      rw [hi]
    have h3 : listFields.all (fun k =>
        match dictGet? d k with
        | some (.vlist _) => true
        | _ => false) = true := by
      rw [List.all_eq_true]
      intro k hk
      obtain ⟨l, hl⟩ := hlist k hk
      rw [hl]
    simp only [validate_character_data, h1, h2, h3, if_true]
  · exact ⟨by decide, by decide, by decide, by decide, by decide, by decide⟩

theorem validate_structural_only_witness :
    validate_character_data (Character.toDict badRecordC10) = Except.ok true :=
  (validate_structural_only (Character.toDict badRecordC10) (by decide)
    (by intro k hk; fin_cases hk <;> exact ⟨_, rfl⟩)
    (by intro k hk; fin_cases hk <;> exact ⟨_, rfl⟩)).1

end CharacterManager
